import Mathlib

/-!
Shallow embedding of the Jukebox web application (src/app.py) and proofs of
the specification claims about it.

The externally hosted relational datastore is modelled as in-memory lists of
rows, one list per table, held in a `DB` record.  Each Flask route handler
becomes a Lean function from the current database (plus the request
parameters and the session user's id) to a response and the new database.
External collaborators (the Spotify catalog search and the OAuth token
endpoint) are passed in as function parameters (oracles), together with a
counter of how many times they were invoked, so that claims about
"no external call" and "exactly one refresh" can be stated.
-/

namespace Jukebox

/-- Response of an API endpoint: HTTP status plus the error message of the
JSON body, if any.  Success bodies carry `error = none`. -/
structure Resp where
  status : Nat
  error : Option String
deriving DecidableEq, Repr

/-- Successful JSON response (`jsonify({'success': True, ...})`, status 200). -/
def respOk : Resp := ⟨200, none⟩

/-- Ownership denial: `jsonify({'error': 'Access denied'}), 403`. -/
def respDenied : Resp := ⟨403, some "Access denied"⟩

/-- In `duplicate_list`: `jsonify({'error': 'List not found'}), 404`. -/
def respNotFound : Resp := ⟨404, some "List not found"⟩

/-- In `follow_user`: `jsonify({'error': 'Cannot follow yourself'}), 400`. -/
def respSelfFollow : Resp := ⟨400, some "Cannot follow yourself"⟩

/-- Row of the `profiles` table (credential fields relevant to the token
lifecycle, plus the username used by search). -/
structure Profile where
  id : Nat
  username : String
  spotify_access_token : Option String
  spotify_refresh_token : Option String
  spotify_token_expires : Option Int
deriving DecidableEq, Repr

/-- Row of the `lists` table. -/
structure ListRow where
  id : Nat
  user_id : Nat
  title : String
  description : String
  is_ranked : Bool
  is_public : Bool
deriving DecidableEq, Repr

/-- Row of the `list_items` table. -/
structure ItemRow where
  id : Nat
  list_id : Nat
  position : Int
  spotify_track_id : Option String
  track_name : Option String
  artist_name : Option String
  album_name : Option String
  album_art_url : Option String
deriving DecidableEq, Repr

/-- Row of the `list_likes` table. -/
structure LikeRow where
  user_id : Nat
  list_id : Nat
deriving DecidableEq, Repr

/-- Row of the `followers` table. -/
structure FollowRow where
  follower_id : Nat
  following_id : Nat
deriving DecidableEq, Repr

/-- Row of the `album_ratings` / `song_ratings` tables.  The two tables have
the same shape, differing only in the name of the subject-name column
(`album_name` vs `track_name`); here that column is called `name`. -/
structure RatingRow where
  id : Nat
  user_id : Nat
  name : String
  artist_name : String
  album_art_url : Option String
  rating : Int
deriving DecidableEq, Repr

/-- A ratings table together with the id the datastore will assign to the
next inserted row. -/
structure RatingsTable where
  rows : List RatingRow
  nextId : Nat
deriving DecidableEq, Repr

/-- The datastore: one list of rows per table, plus the ids the datastore
will assign to the next inserted list / list item. -/
structure DB where
  profiles : List Profile
  lists : List ListRow
  list_items : List ItemRow
  list_likes : List LikeRow
  followers : List FollowRow
  album_ratings : RatingsTable
  song_ratings : RatingsTable
  nextListId : Nat
  nextItemId : Nat
deriving DecidableEq, Repr

/-- The ownership query every mutating list endpoint issues:
`supabase.table('lists').select(...).eq('id', list_id).eq('user_id', uid).single()`.
A row is returned only when both the primary key and the owner id match. -/
def ownedList (db : DB) (uid lid : Nat) : Option ListRow :=
  db.lists.find? (fun l => l.id == lid && l.user_id == uid)

/-- Items of one list:
`supabase.table('list_items').select(...).eq('list_id', list_id)`. -/
def itemsOf (db : DB) (lid : Nat) : List ItemRow :=
  db.list_items.filter (fun it => it.list_id == lid)

/-- Maximum of a list of positions; `maxPos (p :: ps)` folds `max` exactly as
the query `order('position', desc=True).limit(1)` returns the greatest
position of the list. -/
def maxPos : List Int → Option Int
  | [] => none
  | p :: ps => some (ps.foldl max p)

/-- The `order('position', desc=True).limit(1)` query of `add_to_list`:
the greatest position currently present in the list, if any. -/
def maxPosition (db : DB) (lid : Nat) : Option Int :=
  maxPos ((itemsOf db lid).map (fun it => it.position))

/-- Request body of `add_to_list` / `update_list_item` (the five track
fields read with `data.get(...)`). -/
structure TrackData where
  track_id : Option String
  track_name : Option String
  artist_name : Option String
  album_name : Option String
  album_art_url : Option String
deriving DecidableEq, Repr

/-- `POST /api/list/<list_id>/add` — verifies ownership, computes the next
position as max existing position + 1 (1 if the list is empty) and inserts
the item. -/
def add_to_list (db : DB) (uid lid : Nat) (d : TrackData) : Resp × DB :=
  match ownedList db uid lid with
  | none => (respDenied, db)
  | some _ =>
    let next : Int :=
      match maxPosition db lid with
      | some p => p + 1
      | none => 1
    (respOk,
      { db with
        list_items := db.list_items ++
          [⟨db.nextItemId, lid, next, d.track_id, d.track_name, d.artist_name,
             d.album_name, d.album_art_url⟩],
        nextItemId := db.nextItemId + 1 })

/-- `DELETE /api/list/<list_id>/remove/<item_id>` — verifies ownership of the
list, then deletes by item id alone (`delete().eq('id', item_id)`), with no
renumbering of the remaining positions. -/
def remove_from_list (db : DB) (uid lid iid : Nat) : Resp × DB :=
  match ownedList db uid lid with
  | none => (respDenied, db)
  | some _ =>
    (respOk, { db with list_items := db.list_items.filter (fun it => !(it.id == iid)) })

/-- `POST /api/list/<list_id>/update/<item_id>` — verifies ownership, then
updates the item filtered by both id and list id. -/
def update_list_item (db : DB) (uid lid iid : Nat) (d : TrackData) : Resp × DB :=
  match ownedList db uid lid with
  | none => (respDenied, db)
  | some _ =>
    (respOk,
      { db with
        list_items := db.list_items.map (fun it =>
          if it.id == iid && it.list_id == lid then
            { it with
              spotify_track_id := d.track_id,
              track_name := d.track_name,
              artist_name := d.artist_name,
              album_name := d.album_name,
              album_art_url := d.album_art_url }
          else it) })

/-- `DELETE /api/list/<list_id>/delete` — verifies ownership, deletes all
items of the list, then the list row. -/
def delete_list (db : DB) (uid lid : Nat) : Resp × DB :=
  match ownedList db uid lid with
  | none => (respDenied, db)
  | some _ =>
    (respOk,
      { db with
        list_items := db.list_items.filter (fun it => !(it.list_id == lid)),
        lists := db.lists.filter (fun l => !(l.id == lid)) })

/-- Request body of `update_list_settings`; a `none` field was absent from
the JSON body and is left unchanged. -/
structure SettingsData where
  title : Option String
  description : Option String
  is_public : Option Bool
  is_ranked : Option Bool
deriving DecidableEq, Repr

/-- Application of a settings update to one list row. -/
def applySettings (d : SettingsData) (l : ListRow) : ListRow :=
  { l with
    title := d.title.getD l.title,
    description := d.description.getD l.description,
    is_public := d.is_public.getD l.is_public,
    is_ranked := d.is_ranked.getD l.is_ranked }

/-- `POST /api/list/<list_id>/settings` — verifies ownership, then updates
whichever of the four fields are present in the body (no query is issued
when the body carries none of them). -/
def update_list_settings (db : DB) (uid lid : Nat) (d : SettingsData) : Resp × DB :=
  match ownedList db uid lid with
  | none => (respDenied, db)
  | some _ =>
    if d.title.isSome || d.description.isSome || d.is_public.isSome || d.is_ranked.isSome then
      (respOk,
        { db with lists := db.lists.map (fun l => if l.id == lid then applySettings d l else l) })
    else (respOk, db)

/-- `POST /api/list/<list_id>/reorder` — verifies ownership of the list, then
sets a single item's position, filtered by item id alone. -/
def reorder_list (db : DB) (uid lid iid : Nat) (new_position : Int) : Resp × DB :=
  match ownedList db uid lid with
  | none => (respDenied, db)
  | some _ =>
    (respOk,
      { db with
        list_items := db.list_items.map (fun it =>
          if it.id == iid then { it with position := new_position } else it) })

/-- `POST /api/list/<list_id>/reorder-all` — verifies ownership, then applies
one position update per (item id, position) pair of the request, verbatim. -/
def reorder_list_all (db : DB) (uid lid : Nat) (order : List (Nat × Int)) : Resp × DB :=
  match ownedList db uid lid with
  | none => (respDenied, db)
  | some _ =>
    (respOk,
      { db with
        list_items := order.foldl (fun items pr =>
          items.map (fun it => if it.id == pr.1 then { it with position := pr.2 } else it))
          db.list_items })

/-- Copy of a list of source items into the list `newLid`, assigning the
fresh row ids `nid, nid+1, ...` in insertion order; position and the five
descriptive fields are copied verbatim, as in the insert loop of
`duplicate_list`. -/
def copyItems (newLid : Nat) : Nat → List ItemRow → List ItemRow
  | _, [] => []
  | nid, it :: rest =>
    ⟨nid, newLid, it.position, it.spotify_track_id, it.track_name, it.artist_name,
      it.album_name, it.album_art_url⟩ :: copyItems newLid (nid + 1) rest

/-- Decidability of the position ordering used to read source items back in
`order('position')` order. -/
instance decPosLe : DecidableRel (fun a b : ItemRow => a.position ≤ b.position) :=
  fun a b => Int.decLe a.position b.position

/-- `POST /api/list/<list_id>/duplicate` — fetches the source list by primary
key alone (404 when missing), requires it to be public or owned by the
caller (403 otherwise), then inserts a new list titled with the copy marker,
forced private, and copies all items in position order. -/
def duplicate_list (db : DB) (uid lid : Nat) : Resp × DB :=
  match db.lists.find? (fun l => l.id == lid) with
  | none => (respNotFound, db)
  | some src =>
    if !src.is_public && !(uid == src.user_id) then (respDenied, db)
    else
      let newRow : ListRow :=
        ⟨db.nextListId, uid, src.title ++ " (Copy)", src.description, src.is_ranked, false⟩
      let srcItems :=
        List.insertionSort (fun a b => a.position ≤ b.position) (itemsOf db lid)
      let copies := copyItems db.nextListId db.nextItemId srcItems
      (respOk,
        { db with
          lists := db.lists ++ [newRow],
          list_items := db.list_items ++ copies,
          nextListId := db.nextListId + 1,
          nextItemId := db.nextItemId + copies.length })

/-- `POST /api/list/<list_id>/like` — checks the `list_likes` table only (no
query against `lists`): an existing pair is a no-op success, otherwise the
pair is inserted. -/
def like_list (db : DB) (uid lid : Nat) : Resp × DB :=
  match db.list_likes.filter (fun r => r.user_id == uid && r.list_id == lid) with
  | _ :: _ => (respOk, db)
  | [] => (respOk, { db with list_likes := db.list_likes ++ [⟨uid, lid⟩] })

/-- `POST /api/list/<list_id>/unlike` — deletes the pair if present. -/
def unlike_list (db : DB) (uid lid : Nat) : Resp × DB :=
  (respOk,
    { db with
      list_likes := db.list_likes.filter (fun r => !(r.user_id == uid && r.list_id == lid)) })

/-- `POST /api/user/<user_id>/follow` — rejects a self-follow with a 400,
treats an existing relation as a no-op success, otherwise inserts the pair. -/
def follow_user (db : DB) (follower_id target_id : Nat) : Resp × DB :=
  if follower_id == target_id then (respSelfFollow, db)
  else
    match db.followers.filter (fun r =>
        r.follower_id == follower_id && r.following_id == target_id) with
    | _ :: _ => (respOk, db)
    | [] => (respOk, { db with followers := db.followers ++ [⟨follower_id, target_id⟩] })

/-- Key predicate of the ratings tables: one row per
(user, subject name, artist name). -/
def keyMatch (uid : Nat) (name artist : String) (r : RatingRow) : Bool :=
  r.user_id == uid && r.name == name && r.artist_name == artist

/-- Number of rows a ratings table stores for one (user, subject) key. -/
def keyCount (t : RatingsTable) (uid : Nat) (name artist : String) : Nat :=
  (t.rows.filter (keyMatch uid name artist)).length

/-- Core of `save_album_rating` / `save_song_rating` (the two handlers are
verbatim copies of each other over their respective tables): looks up the
existing rows for the key; a rating of 0 deletes the first existing row (by
its id) or does nothing; a non-zero rating updates the first existing row
(by its id) or inserts a new one.  Every branch reports success. -/
def save_rating (t : RatingsTable) (uid : Nat) (name artist : String)
    (art : Option String) (rating : Int) : Resp × RatingsTable :=
  let existing := t.rows.filter (keyMatch uid name artist)
  if rating == 0 then
    match existing with
    | [] => (respOk, t)
    | e :: _ => (respOk, ⟨t.rows.filter (fun r => !(r.id == e.id)), t.nextId⟩)
  else
    match existing with
    | e :: _ =>
      (respOk,
        ⟨t.rows.map (fun r =>
          if r.id == e.id then { r with rating := rating, album_art_url := art } else r),
         t.nextId⟩)
    | [] => (respOk, ⟨t.rows ++ [⟨t.nextId, uid, name, artist, art, rating⟩], t.nextId + 1⟩)

/-- `POST /api/album/rating`. -/
def save_album_rating (db : DB) (uid : Nat) (name artist : String)
    (art : Option String) (rating : Int) : Resp × DB :=
  let out := save_rating db.album_ratings uid name artist art rating
  (out.1, { db with album_ratings := out.2 })

/-- `POST /api/song/rating`. -/
def save_song_rating (db : DB) (uid : Nat) (name artist : String)
    (art : Option String) (rating : Int) : Resp × DB :=
  let out := save_rating db.song_ratings uid name artist art rating
  (out.1, { db with song_ratings := out.2 })

/-- Token payload of a successful refresh response from
`https://accounts.spotify.com/api/token`; `refresh_token` is `some` exactly
when the service rotated the refresh token. -/
structure TokenData where
  access_token : String
  expires_in : Int
  refresh_token : Option String
deriving DecidableEq, Repr

/-- Result of `get_user_spotify_client`: the access token the returned
client would use (`none` = "not connected"), the profiles table after the
call, and the number of calls made to `refresh_spotify_token`. -/
structure SpotifyClientResult where
  client : Option String
  profiles : List Profile
  refreshCalls : Nat
deriving DecidableEq, Repr

/-- `get_user_spotify_client` — looks up the stored credential fields; a
missing profile or missing access token is "not connected"; a stored expiry
at or before `now` triggers one refresh through the `refreshResp` oracle
using the stored refresh token, persisting the new access token, the new
expiry `now + expires_in`, and the rotated refresh token when the response
carries one; a missing refresh token or failed refresh resolves to "not
connected" without touching the stored fields. -/
def get_user_spotify_client (profiles : List Profile) (uid : Nat) (now : Int)
    (refreshResp : String → Option TokenData) : SpotifyClientResult :=
  match profiles.find? (fun p => p.id == uid) with
  | none => ⟨none, profiles, 0⟩
  | some p =>
    match p.spotify_access_token with
    | none => ⟨none, profiles, 0⟩
    | some tok =>
      match p.spotify_token_expires with
      | some exp =>
        if exp ≤ now then
          match p.spotify_refresh_token with
          | none => ⟨none, profiles, 0⟩
          | some rt =>
            match refreshResp rt with
            | none => ⟨none, profiles, 1⟩
            | some td =>
              ⟨some td.access_token,
                profiles.map (fun q =>
                  if q.id == uid then
                    { q with
                      spotify_access_token := some td.access_token,
                      spotify_token_expires := some (now + td.expires_in),
                      spotify_refresh_token :=
                        match td.refresh_token with
                        | some r2 => some r2
                        | none => q.spotify_refresh_token }
                  else q),
                1⟩
        else ⟨some tok, profiles, 0⟩
      | none => ⟨some tok, profiles, 0⟩

/-- A track as reshaped by the search endpoints from the catalog response. -/
structure Track where
  id : String
  name : String
  artist : String
  album : String
  album_art : Option String
deriving DecidableEq, Repr

/-- An album as reshaped by the album search endpoint. -/
structure Album where
  id : String
  name : String
  artist : String
  album_art : Option String
  year : String
deriving DecidableEq, Repr

/-- Substring test over character lists, used to model the datastore's
case-insensitive pattern match `ilike('%query%')`. -/
def containsSub (needle : List Char) : List Char → Bool
  | [] => needle.isEmpty
  | c :: rest => needle.isPrefixOf (c :: rest) || containsSub needle rest

/-- Python's `str.strip()` on the character list: leading and trailing
whitespace removed. -/
def stripChars (l : List Char) : List Char :=
  ((l.dropWhile Char.isWhitespace).reverse.dropWhile Char.isWhitespace).reverse

/-- Python's `str.strip()`. -/
def pyStrip (s : String) : String := String.mk (stripChars s.toList)

/-- Count of a user's public lists
(`select('id', count='exact').eq('user_id', uid).eq('is_public', True)`). -/
def publicListCount (db : DB) (uid : Nat) : Nat :=
  (db.lists.filter (fun l => l.user_id == uid && l.is_public)).length

/-- Exact item count of a list. -/
def itemCount (db : DB) (lid : Nat) : Nat := (itemsOf db lid).length

/-- Exact like count of a list. -/
def likeCount (db : DB) (lid : Nat) : Nat :=
  (db.list_likes.filter (fun r => r.list_id == lid)).length

/-- Art of the first item of a list in position order, the preview image of
the unified search results. -/
def previewImage (db : DB) (lid : Nat) : Option String :=
  match List.insertionSort (fun a b : ItemRow => a.position ≤ b.position) (itemsOf db lid) with
  | [] => none
  | it :: _ => it.album_art_url

/-- One list entry of the unified search results. -/
structure UnifiedListEntry where
  id : Nat
  title : String
  username : String
  preview_image : Option String
  item_count : Nat
  like_count : Nat
deriving DecidableEq, Repr

/-- Result shape of `/api/search/unified`. -/
structure UnifiedResults where
  profiles : List (String × Nat)
  lists : List UnifiedListEntry
  songs : List Track
  albums : List Album
deriving DecidableEq, Repr

/-- `GET /api/spotify/search` — queries shorter than 2 characters
short-circuit to an empty track list; otherwise one call is made to the
external catalog (`searchTracks`).  The second component counts the
external calls. -/
def spotify_search (query : String) (searchTracks : String → List Track) :
    List Track × Nat :=
  if query.length < 2 then ([], 0)
  else (searchTracks query, 1)

/-- `GET /api/spotify/search/albums` — same short-circuit for albums. -/
def spotify_search_albums (query : String) (searchAlbums : String → List Album) :
    List Album × Nat :=
  if query.length < 2 then ([], 0)
  else (searchAlbums query, 1)

/-- Username of the owning profile of a list, `"Unknown"` when missing. -/
def ownerUsername (db : DB) (l : ListRow) : String :=
  match db.profiles.find? (fun p => p.id == l.user_id) with
  | some p => p.username
  | none => "Unknown"

/-- `GET /api/search/unified` — the stripped query short-circuits below 2
characters to four empty result sets with no external call; otherwise
profiles and public lists are matched in the datastore by `ilike` and one
track search plus one album search go to the external catalog.  The second
component counts the external calls. -/
def unified_search (db : DB) (q : String) (searchTracks : String → List Track)
    (searchAlbums : String → List Album) : UnifiedResults × Nat :=
  let query := pyStrip q
  if query.length < 2 then (⟨[], [], [], []⟩, 0)
  else
    let profs := (db.profiles.filter (fun p =>
      containsSub query.toLower.toList p.username.toLower.toList)).take 5
    let listRows := (db.lists.filter (fun l =>
      containsSub query.toLower.toList l.title.toLower.toList && l.is_public)).take 5
    (⟨profs.map (fun p => (p.username, publicListCount db p.id)),
      listRows.map (fun l =>
        ⟨l.id, l.title, ownerUsername db l, previewImage db l.id,
          itemCount db l.id, likeCount db l.id⟩),
      searchTracks query,
      searchAlbums query⟩, 2)

/-! General helper lemmas. -/

/-- The single-query ownership check fails when no row carries both the
requested primary key and the requesting user as owner. -/
lemma ownedList_eq_none {db : DB} {uid lid : Nat}
    (h : ∀ l ∈ db.lists, l.id = lid → l.user_id ≠ uid) :
    ownedList db uid lid = none := by
  unfold ownedList
  rw [List.find?_eq_none]
  intro l hl
  simp only [Bool.and_eq_true, beq_iff_eq, not_and]
  exact h l hl

/-- Injectivity on members of a list whose image under `f` has no
duplicates. -/
lemma nodup_map_inj {α β : Type} {f : α → β} {l : List α}
    (h : (l.map f).Nodup) {a b : α} (ha : a ∈ l) (hb : b ∈ l)
    (hfab : f a = f b) : a = b := by
  induction l with
  | nil => cases ha
  | cons x xs ih =>
    rw [List.map_cons, List.nodup_cons] at h
    rcases List.mem_cons.mp ha with rfl | ha2
    · rcases List.mem_cons.mp hb with rfl | hb2
      · rfl
      · exact absurd (hfab ▸ List.mem_map_of_mem f hb2) h.1
    · rcases List.mem_cons.mp hb with rfl | hb2
      · exact absurd (hfab.symm ▸ List.mem_map_of_mem f ha2) h.1
      · exact ih h.2 ha2 hb2

/-- The first match of `find?` is the only match when matches are unique. -/
lemma find?_eq_some_of_unique {α : Type} {p : α → Bool} {l : List α} {a : α}
    (hmem : a ∈ l) (hp : p a = true)
    (huniq : ∀ x ∈ l, p x = true → x = a) :
    l.find? p = some a := by
  induction l with
  | nil => cases hmem
  | cons x xs ih =>
    by_cases hx : p x = true
    · have : x = a := huniq x (List.mem_cons_self x xs) hx
      subst this
      simp [List.find?, hx]
    · have hxa : x ≠ a := fun h => hx (h ▸ hp)
      have hmem2 : a ∈ xs := by
        rcases List.mem_cons.mp hmem with rfl | h2
        · exact absurd rfl hxa
        · exact h2
      rw [List.find?]
      rw [Bool.eq_false_iff.mpr hx]
      exact ih hmem2 (fun x hx2 hp2 => huniq x (List.mem_cons_of_mem _ hx2) hp2)

/-! Claim C1. -/

/-- C1: for every pair of distinct users A and B and every list owned by B,
each of the seven mutating list/item endpoints (add, remove, update,
reorder single, reorder all, settings, delete) invoked by A returns the 403
denial and leaves the datastore unchanged, for every item id, position,
payload or reorder list supplied in the request. -/
theorem C1_ownership_denial (db : DB) (A B lid iid : Nat) (pos : Int)
    (td : TrackData) (sd : SettingsData) (ord : List (Nat × Int))
    (hAB : A ≠ B)
    (hOwner : ∀ l ∈ db.lists, l.id = lid → l.user_id = B) :
    add_to_list db A lid td = (respDenied, db) ∧
    remove_from_list db A lid iid = (respDenied, db) ∧
    update_list_item db A lid iid td = (respDenied, db) ∧
    reorder_list db A lid iid pos = (respDenied, db) ∧
    reorder_list_all db A lid ord = (respDenied, db) ∧
    update_list_settings db A lid sd = (respDenied, db) ∧
    delete_list db A lid = (respDenied, db) := by
  have hnone : ownedList db A lid = none := by
    apply ownedList_eq_none
    intro l hl hid hA
    exact hAB (by rw [← hA, hOwner l hl hid])
  refine ⟨?_, ?_, ?_, ?_, ?_, ?_, ?_⟩ <;>
    simp only [add_to_list, remove_from_list, update_list_item, reorder_list,
      reorder_list_all, update_list_settings, delete_list, hnone]

/-- Empty track payload, used by witnesses. -/
def tdW : TrackData := ⟨none, none, none, none, none⟩

/-- Empty settings payload, used by witnesses. -/
def sdW : SettingsData := ⟨none, none, none, none⟩

/-- Concrete datastore for the C1 witness: list 10 is owned by user 2. -/
def dbC1 : DB :=
  ⟨[], [⟨10, 2, "B list", "", false, false⟩], [], [], [], ⟨[], 1⟩, ⟨[], 1⟩, 11, 1⟩

/-- Witness for C1: user 1 mutating user 2's list 10 is denied. -/
theorem C1_witness :
    ((1 : Nat) ≠ 2 ∧ ∀ l ∈ dbC1.lists, l.id = 10 → l.user_id = 2) ∧
    add_to_list dbC1 1 10 tdW = (respDenied, dbC1) :=
  ⟨⟨by decide, by decide⟩,
    (C1_ownership_denial dbC1 1 2 10 5 3 tdW sdW [] (by decide) (by decide)).1⟩

/-! Claim C6. -/

/-- C6: liking the same list twice, or following the same (distinct) user
twice, reports success both times and leaves exactly one relation row for
the pair, starting from any state with at most one such row. -/
theorem C6_like_follow_idempotent (db : DB) (u l t : Nat) (hut : u ≠ t)
    (hlike : (db.list_likes.filter
      (fun r => r.user_id == u && r.list_id == l)).length ≤ 1)
    (hfol : (db.followers.filter
      (fun r => r.follower_id == u && r.following_id == t)).length ≤ 1) :
    ((like_list db u l).1 = respOk ∧
     (like_list (like_list db u l).2 u l).1 = respOk ∧
     ((like_list (like_list db u l).2 u l).2.list_likes.filter
        (fun r => r.user_id == u && r.list_id == l)).length = 1) ∧
    ((follow_user db u t).1 = respOk ∧
     (follow_user (follow_user db u t).2 u t).1 = respOk ∧
     ((follow_user (follow_user db u t).2 u t).2.followers.filter
        (fun r => r.follower_id == u && r.following_id == t)).length = 1) := by
  have hut2 : (u == t) = false := beq_eq_false_iff_ne.mpr hut
  constructor
  · cases hfil : db.list_likes.filter (fun r => r.user_id == u && r.list_id == l) with
    | nil =>
      have hrow : (fun r : LikeRow => r.user_id == u && r.list_id == l) ⟨u, l⟩ = true := by
        simp
      simp [like_list, hfil, List.filter_append, hrow]
    | cons a as =>
      have has : as = [] := by
        rw [hfil] at hlike
        simpa using hlike
      subst has
      simp [like_list, hfil]
  · cases hfil : db.followers.filter
        (fun r => r.follower_id == u && r.following_id == t) with
    | nil =>
      have hrow : (fun r : FollowRow => r.follower_id == u && r.following_id == t)
          ⟨u, t⟩ = true := by simp
      simp [follow_user, hut2, hfil, List.filter_append, hrow]
    | cons a as =>
      have has : as = [] := by
        rw [hfil] at hfol
        simpa using hfol
      subst has
      simp [follow_user, hut2, hfil]

/-- Empty datastore, used by several witnesses. -/
def dbEmpty : DB := ⟨[], [], [], [], [], ⟨[], 1⟩, ⟨[], 1⟩, 1, 1⟩

/-- Counterexample to C6 as stated over every (user, target) pair: when the
target of a follow is the user themselves, both calls answer the 400
self-follow error instead of success, and no relation row is left. -/
theorem C6_counterexample :
    (follow_user dbEmpty 1 1).1 ≠ respOk ∧
    ((follow_user (follow_user dbEmpty 1 1).2 1 1).2.followers.filter
      (fun r => r.follower_id == 1 && r.following_id == 1)).length = 0 := by
  decide

/-- Witness for C6 at user 1, list 5, target user 2 on the empty store. -/
theorem C6_witness :
    ((1 : Nat) ≠ 2 ∧
     (dbEmpty.list_likes.filter
       (fun r => r.user_id == 1 && r.list_id == 5)).length ≤ 1 ∧
     (dbEmpty.followers.filter
       (fun r => r.follower_id == 1 && r.following_id == 2)).length ≤ 1) ∧
    ((like_list dbEmpty 1 5).1 = respOk ∧
     (like_list (like_list dbEmpty 1 5).2 1 5).1 = respOk ∧
     ((like_list (like_list dbEmpty 1 5).2 1 5).2.list_likes.filter
        (fun r => r.user_id == 1 && r.list_id == 5)).length = 1) :=
  ⟨⟨by decide, by decide, by decide⟩,
    (C6_like_follow_idempotent dbEmpty 1 5 2 (by decide) (by decide) (by decide)).1⟩

/-! Claim C9. -/

/-- Dropping a prefix and a suffix of whitespace never lengthens a string. -/
lemma stripChars_length_le (l : List Char) : (stripChars l).length ≤ l.length := by
  unfold stripChars
  rw [List.length_reverse]
  refine le_trans (List.dropWhile_sublist _).length_le ?_
  rw [List.length_reverse]
  exact (List.dropWhile_sublist _).length_le

/-- String version of `stripChars_length_le`. -/
lemma pyStrip_length_le (s : String) : (pyStrip s).length ≤ s.length :=
  stripChars_length_le s.toList

/-- C9: all three search endpoints return empty result sets and make no
external catalog call for queries of length 0 or 1. -/
theorem C9_short_query_empty (db : DB) (q : String) (hq : q.length < 2)
    (searchTracks : String → List Track) (searchAlbums : String → List Album) :
    spotify_search q searchTracks = ([], 0) ∧
    spotify_search_albums q searchAlbums = ([], 0) ∧
    unified_search db q searchTracks searchAlbums = (⟨[], [], [], []⟩, 0) := by
  have h2 : (pyStrip q).length < 2 := lt_of_le_of_lt (pyStrip_length_le q) hq
  refine ⟨?_, ?_, ?_⟩
  · simp [spotify_search, hq]
  · simp [spotify_search_albums, hq]
  · simp [unified_search, h2]

/-- Witness for C9 at the one-character query "a". -/
theorem C9_witness :
    ("a".length < 2) ∧
    unified_search dbEmpty "a" (fun _ => []) (fun _ => []) = (⟨[], [], [], []⟩, 0) :=
  ⟨by decide,
    (C9_short_query_empty dbEmpty "a" (by decide) (fun _ => []) (fun _ => [])).2.2⟩

/-! Claim C10. -/

/-- C10: liking a list checks nothing about the target list — for every
datastore and every list id, whatever the `lists` table holds for that id
(a private list of another owner, or no row at all), a missing pair is
inserted and an existing pair is a no-op, both reported as success. -/
theorem C10_like_without_existence_check (db : DB) (uid lid : Nat) :
    ((∀ r ∈ db.list_likes, ¬(r.user_id = uid ∧ r.list_id = lid)) →
      like_list db uid lid =
        (respOk, { db with list_likes := db.list_likes ++ [⟨uid, lid⟩] })) ∧
    ((∃ r ∈ db.list_likes, r.user_id = uid ∧ r.list_id = lid) →
      like_list db uid lid = (respOk, db)) := by
  constructor
  · intro hno
    have hfil : db.list_likes.filter
        (fun r => r.user_id == uid && r.list_id == lid) = [] := by
      rw [List.filter_eq_nil_iff]
      intro r hr
      simp only [Bool.and_eq_true, beq_iff_eq]
      exact fun h => hno r hr h
    simp [like_list, hfil]
  · rintro ⟨r, hr, h1, h2⟩
    cases hfil : db.list_likes.filter
        (fun r => r.user_id == uid && r.list_id == lid) with
    | nil =>
      exfalso
      have : r ∈ db.list_likes.filter
          (fun r => r.user_id == uid && r.list_id == lid) :=
        List.mem_filter.mpr ⟨hr, by simp [h1, h2]⟩
      rw [hfil] at this
      cases this
    | cons a as => simp [like_list, hfil]

/-- Concrete datastore for the C10 witness: list 7 exists, is private, and
is owned by user 2 — the caller, user 3, is neither owner nor reader. -/
def dbC10 : DB :=
  ⟨[], [⟨7, 2, "private list", "", false, false⟩], [], [], [], ⟨[], 1⟩, ⟨[], 1⟩, 8, 1⟩

/-- Witness for C10: user 3 liking the private list 7 of user 2 inserts the
pair and succeeds, with no visibility check. -/
theorem C10_witness :
    (∀ r ∈ dbC10.list_likes, ¬(r.user_id = 3 ∧ r.list_id = 7)) ∧
    like_list dbC10 3 7 =
      (respOk, { dbC10 with list_likes := dbC10.list_likes ++ [⟨3, 7⟩] }) :=
  ⟨by decide,
    (C10_like_without_existence_check dbC10 3 7).1 (by decide)⟩

/-! Claim C8. -/

/-- C8: removing an item of an owned list deletes exactly that item's row;
every other row — list rows and the remaining item rows with their
positions — is left verbatim, so position gaps persist. -/
theorem C8_remove_deletes_only_that_row (db : DB) (uid lid iid : Nat) (it : ItemRow)
    (hown : (ownedList db uid lid).isSome = true)
    (hmem : it ∈ db.list_items) (hid : it.id = iid) (hin : it.list_id = lid)
    (hnodup : (db.list_items.map (fun r => r.id)).Nodup) :
    (remove_from_list db uid lid iid).1 = respOk ∧
    (remove_from_list db uid lid iid).2.lists = db.lists ∧
    ∃ l1 l2, db.list_items = l1 ++ it :: l2 ∧
      (remove_from_list db uid lid iid).2.list_items = l1 ++ l2 := by
  obtain ⟨L, hL⟩ := Option.isSome_iff_exists.mp hown
  obtain ⟨l1, l2, hsplit⟩ := List.append_of_mem hmem
  have hres : remove_from_list db uid lid iid =
      (respOk,
        { db with list_items := db.list_items.filter (fun r => !(r.id == iid)) }) := by
    simp [remove_from_list, hL]
  have hperm : (db.list_items.map (fun r => r.id)).Perm
      (it.id :: (l1 ++ l2).map (fun r => r.id)) := by
    rw [hsplit, List.map_append, List.map_cons, List.map_append]
    exact List.perm_middle
  have hnodup2 := List.nodup_cons.mp (hperm.nodup hnodup)
  have hne : ∀ x ∈ l1 ++ l2, (!(x.id == iid)) = true := by
    intro x hx
    have hxid : x.id ≠ iid := by
      intro he
      apply hnodup2.1
      have : x.id ∈ (l1 ++ l2).map (fun r => r.id) :=
        List.mem_map_of_mem (fun r => r.id) hx
      rwa [he, ← hid] at this
    simp [hxid]
  rw [hres]
  refine ⟨rfl, rfl, l1, l2, hsplit, ?_⟩
  show db.list_items.filter (fun r => !(r.id == iid)) = l1 ++ l2
  rw [hsplit, List.filter_append, List.filter_cons]
  have hit : (!(it.id == iid)) = false := by simp [hid]
  rw [hit]
  simp only [Bool.false_eq_true, if_false]
  rw [← List.filter_append, List.filter_eq_self.mpr hne]

/-- Concrete datastore for the C8 witness: list 10 owned by user 1 holds
items 100 (position 1) and 101 (position 2). -/
def dbC8 : DB :=
  ⟨[], [⟨10, 1, "mine", "", true, false⟩],
    [⟨100, 10, 1, none, none, none, none, none⟩,
     ⟨101, 10, 2, none, none, none, none, none⟩],
    [], [], ⟨[], 1⟩, ⟨[], 1⟩, 11, 102⟩

/-- The row removed by the C8 witness. -/
def itC8 : ItemRow := ⟨100, 10, 1, none, none, none, none, none⟩

/-- Witness for C8: removing item 100 from list 10 succeeds. -/
theorem C8_witness :
    ((ownedList dbC8 1 10).isSome = true ∧ itC8 ∈ dbC8.list_items ∧
     itC8.id = 100 ∧ itC8.list_id = 10 ∧
     (dbC8.list_items.map (fun r => r.id)).Nodup) ∧
    (remove_from_list dbC8 1 10 100).1 = respOk :=
  ⟨⟨by decide, by decide, by decide, by decide, by decide⟩,
    (C8_remove_deletes_only_that_row dbC8 1 10 100 itC8 (by decide) (by decide)
      (by decide) (by decide) (by decide)).1⟩

/-! Claim C4. -/

/-- Positions 1, 2, ..., k as integers. -/
def posRange : Nat → List Int
  | 0 => []
  | k + 1 => posRange k ++ [(k : Int) + 1]

/-- Sequential invocation of `add_to_list` for each payload of `ts`. -/
def addAll (db : DB) (uid lid : Nat) (ts : List TrackData) : DB :=
  ts.foldl (fun d t => (add_to_list d uid lid t).2) db

/-- A `max`-fold bounds its seed and every element of the list. -/
lemma foldl_max_le : ∀ (l : List Int) (b : Int),
    b ≤ l.foldl max b ∧ ∀ x ∈ l, x ≤ l.foldl max b := by
  intro l
  induction l with
  | nil => exact fun b => ⟨le_refl b, by simp⟩
  | cons a as ih =>
    intro b
    refine ⟨le_trans (le_max_left b a) (ih (max b a)).1, ?_⟩
    intro x hx
    rcases List.mem_cons.mp hx with rfl | h2
    · exact le_trans (le_max_right b x) (ih (max b x)).1
    · exact (ih (max b a)).2 x h2

/-- A `max`-fold returns its seed or an element of the list. -/
lemma foldl_max_mem : ∀ (l : List Int) (b : Int),
    l.foldl max b = b ∨ l.foldl max b ∈ l := by
  intro l
  induction l with
  | nil => exact fun b => Or.inl rfl
  | cons a as ih =>
    intro b
    rcases ih (max b a) with h | h
    · rcases max_choice b a with h2 | h2
      · rw [List.foldl_cons, h, h2]
        exact Or.inl rfl
      · rw [List.foldl_cons, h, h2]
        exact Or.inr (List.mem_cons_self a as)
    · exact Or.inr (List.mem_cons_of_mem a h)

/-- The value `maxPos` returns is attained and is an upper bound. -/
lemma maxPos_spec {l : List Int} {m : Int} (h : maxPos l = some m) :
    m ∈ l ∧ ∀ x ∈ l, x ≤ m := by
  cases l with
  | nil => cases h
  | cons p ps =>
    unfold maxPos at h
    injection h with h
    subst h
    constructor
    · rcases foldl_max_mem ps p with h1 | h1
      · rw [h1]; exact List.mem_cons_self p ps
      · exact List.mem_cons_of_mem p h1
    · intro x hx
      rcases List.mem_cons.mp hx with rfl | h2
      · exact (foldl_max_le ps x).1
      · exact (foldl_max_le ps p).2 x h2

/-- `maxPos` over a list extended on the right. -/
lemma maxPos_concat (l : List Int) (a : Int) :
    maxPos (l ++ [a]) =
      some (match maxPos l with | none => a | some m => max m a) := by
  cases l with
  | nil => rfl
  | cons p ps => simp [maxPos, List.foldl_append]

/-- `maxPos` of the position range 1..k is k (none when the range is empty). -/
lemma maxPos_posRange : ∀ k : Nat,
    maxPos (posRange k) = if k = 0 then none else some (k : Int) := by
  intro k
  induction k with
  | zero => rfl
  | succ n ih =>
    rw [posRange, maxPos_concat, ih]
    by_cases hn : n = 0
    · subst hn; simp
    · rw [if_neg hn, if_neg (Nat.succ_ne_zero n)]
      have hmax : max (n : Int) ((n : Int) + 1) = (n : Int) + 1 :=
        max_eq_right (by omega)
      have hcast : (((n + 1 : Nat)) : Int) = (n : Int) + 1 := by
        push_cast
        ring
      rw [hcast]
      exact congrArg some hmax

/-- Effect of a successful `add_to_list` on the tables. -/
lemma add_to_list_items (db : DB) (uid lid : Nat) (td : TrackData) (L : ListRow)
    (hL : ownedList db uid lid = some L) :
    ∃ newIt : ItemRow,
      (add_to_list db uid lid td).2.list_items = db.list_items ++ [newIt] ∧
      (add_to_list db uid lid td).2.lists = db.lists ∧
      newIt.list_id = lid ∧
      newIt.position =
        (match maxPosition db lid with | some p => p + 1 | none => 1) := by
  refine ⟨⟨db.nextItemId, lid,
    (match maxPosition db lid with | some p => p + 1 | none => 1),
    td.track_id, td.track_name, td.artist_name, td.album_name, td.album_art_url⟩,
    ?_, ?_, rfl, rfl⟩ <;>
  simp [add_to_list, hL]

/-- Items of a list after a row of that list is appended. -/
lemma itemsOf_append_new {db db2 : DB} {lid : Nat} {newIt : ItemRow}
    (h : db2.list_items = db.list_items ++ [newIt]) (hlid : newIt.list_id = lid) :
    itemsOf db2 lid = itemsOf db lid ++ [newIt] := by
  unfold itemsOf
  rw [h, List.filter_append]
  congr 1
  simp [hlid]

/-- The ownership check only reads the `lists` table. -/
lemma ownedList_of_lists_eq {db db2 : DB} (h : db2.lists = db.lists)
    (uid lid : Nat) : ownedList db2 uid lid = ownedList db uid lid := by
  unfold ownedList
  rw [h]

/-- Sequential adds extend the position sequence 1..k to 1..(k + N). -/
lemma addAll_positions (uid lid : Nat) (ts : List TrackData) :
    ∀ (db : DB) (k : Nat),
      (ownedList db uid lid).isSome = true →
      (itemsOf db lid).map (fun it => it.position) = posRange k →
      (ownedList (addAll db uid lid ts) uid lid).isSome = true ∧
      (itemsOf (addAll db uid lid ts) lid).map (fun it => it.position) =
        posRange (k + ts.length) := by
  induction ts with
  | nil => exact fun db k h1 h2 => ⟨h1, by simpa using h2⟩
  | cons t rest ih =>
    intro db k h1 h2
    obtain ⟨L, hL⟩ := Option.isSome_iff_exists.mp h1
    obtain ⟨newIt, hitems, hlists, hlid, hpos⟩ := add_to_list_items db uid lid t L hL
    have hown1 : (ownedList (add_to_list db uid lid t).2 uid lid).isSome = true := by
      rw [ownedList_of_lists_eq hlists]
      exact h1
    have hmax : maxPosition db lid = maxPos (posRange k) := by
      unfold maxPosition
      rw [h2]
    have hposval : newIt.position = (k : Int) + 1 := by
      rw [hpos, hmax, maxPos_posRange]
      by_cases hk : k = 0
      · subst hk
        simp
      · simp [if_neg hk]
    have hitems2 : (itemsOf (add_to_list db uid lid t).2 lid).map
        (fun it => it.position) = posRange (k + 1) := by
      rw [itemsOf_append_new hitems hlid, List.map_append, h2]
      simp [posRange, hposval]
    have hstep := ih (add_to_list db uid lid t).2 (k + 1) hown1 hitems2
    have harith : k + 1 + rest.length = k + (rest.length + 1) := by omega
    have hfold : addAll db uid lid (t :: rest) =
        addAll (add_to_list db uid lid t).2 uid lid rest := rfl
    rw [hfold, List.length_cons, ← harith]
    exact hstep

/-- C4: adding to an owned list appends one item whose position is 1 on an
empty list and otherwise one more than an attained upper bound of the
existing positions; consequently N sequential adds to an empty list yield
positions 1..N in insertion order. -/
theorem C4_next_position (db : DB) (uid lid : Nat) (td : TrackData)
    (ts : List TrackData)
    (hown : (ownedList db uid lid).isSome = true) :
    (∃ newIt : ItemRow,
      (add_to_list db uid lid td).2.list_items = db.list_items ++ [newIt] ∧
      newIt.list_id = lid ∧
      (itemsOf db lid = [] → newIt.position = 1) ∧
      (itemsOf db lid ≠ [] →
        (∃ o ∈ itemsOf db lid, o.position + 1 = newIt.position) ∧
        ∀ o ∈ itemsOf db lid, o.position < newIt.position)) ∧
    (itemsOf db lid = [] →
      (itemsOf (addAll db uid lid ts) lid).map (fun it => it.position) =
        posRange ts.length) := by
  obtain ⟨L, hL⟩ := Option.isSome_iff_exists.mp hown
  obtain ⟨newIt, hitems, hlists, hlid, hpos⟩ := add_to_list_items db uid lid td L hL
  constructor
  · refine ⟨newIt, hitems, hlid, ?_, ?_⟩
    · intro hempty
      have hmaxnone : maxPosition db lid = none := by
        unfold maxPosition
        rw [hempty]
        rfl
      rw [hpos, hmaxnone]
    · intro hne
      cases hmax : maxPosition db lid with
      | none =>
        exfalso
        unfold maxPosition at hmax
        cases hItems : itemsOf db lid with
        | nil => exact hne hItems
        | cons a as =>
          rw [hItems] at hmax
          cases hmax
      | some m =>
        have hposm : newIt.position = m + 1 := by
          rw [hpos, hmax]
        unfold maxPosition at hmax
        obtain ⟨hmem, hub⟩ := maxPos_spec hmax
        obtain ⟨o, ho, hom⟩ := List.mem_map.mp hmem
        constructor
        · exact ⟨o, ho, by rw [hom, hposm]⟩
        · intro o2 ho2
          have : o2.position ≤ m :=
            hub o2.position (List.mem_map_of_mem (fun it => it.position) ho2)
          omega
  · intro hempty
    have h0 : (itemsOf db lid).map (fun it => it.position) = posRange 0 := by
      rw [hempty]
      rfl
    have := (addAll_positions uid lid ts db 0 hown h0).2
    rwa [Nat.zero_add] at this


/-- Concrete datastore for the C4 witness: empty list 10 owned by user 1. -/
def dbC4 : DB :=
  ⟨[], [⟨10, 1, "mine", "", true, false⟩], [], [], [], ⟨[], 1⟩, ⟨[], 1⟩, 11, 1⟩

/-- Witness for C4: two adds to the empty list 10 yield positions 1, 2. -/
theorem C4_witness :
    ((ownedList dbC4 1 10).isSome = true ∧ itemsOf dbC4 10 = []) ∧
    (itemsOf (addAll dbC4 1 10 [tdW, tdW]) 10).map (fun it => it.position) =
      posRange 2 :=
  ⟨⟨by decide, by decide⟩,
    (C4_next_position dbC4 1 10 tdW [tdW, tdW] (by decide)).2 (by decide)⟩

/-! Claim C7. -/

/-- Projection of an item row to the fields the duplicate copies verbatim:
position plus the five descriptive fields. -/
def projItem (it : ItemRow) :
    Int × Option String × Option String × Option String × Option String ×
      Option String :=
  (it.position, it.spotify_track_id, it.track_name, it.artist_name,
    it.album_name, it.album_art_url)

/-- Copying preserves position and content of every item. -/
lemma copyItems_map_proj (newLid : Nat) : ∀ (nid : Nat) (l : List ItemRow),
    (copyItems newLid nid l).map projItem = l.map projItem := by
  intro nid l
  induction l generalizing nid with
  | nil => rfl
  | cons a as ih =>
    simp only [copyItems, List.map_cons, ih]
    rfl

/-- Every copied item belongs to the new list. -/
lemma copyItems_list_id (newLid : Nat) : ∀ (nid : Nat) (l : List ItemRow),
    ∀ it ∈ copyItems newLid nid l, it.list_id = newLid := by
  intro nid l
  induction l generalizing nid with
  | nil => intro it h; cases h
  | cons a as ih =>
    intro it h
    rcases List.mem_cons.mp h with rfl | h2
    · rfl
    · exact ih (nid + 1) it h2

/-- C7: duplicating a readable list (public, or owned by the caller)
succeeds, appends a new list owned by the caller titled with the copy
marker, same description and rank flag, forced private — and the new list's
items agree with the source list's items in position and content. -/
theorem C7_duplicate_semantics (db : DB) (uid lid : Nat) (src : ListRow)
    (hmem : src ∈ db.lists) (hid : src.id = lid)
    (huniq : ∀ l ∈ db.lists, l.id = lid → l = src)
    (hread : src.is_public = true ∨ src.user_id = uid)
    (hfresh : ∀ it ∈ db.list_items, it.list_id ≠ db.nextListId) :
    (duplicate_list db uid lid).1 = respOk ∧
    (duplicate_list db uid lid).2.lists = db.lists ++
      [⟨db.nextListId, uid, src.title ++ " (Copy)", src.description,
        src.is_ranked, false⟩] ∧
    ((itemsOf (duplicate_list db uid lid).2 db.nextListId).map projItem).Perm
      ((itemsOf db lid).map projItem) := by
  have hfind : db.lists.find? (fun l => l.id == lid) = some src :=
    find?_eq_some_of_unique hmem (by simp [hid])
      (fun x hx hp => huniq x hx (by simpa using hp))
  have hcond : (!src.is_public && !(uid == src.user_id)) = false := by
    rcases hread with h | h
    · simp [h]
    · simp [h]
  refine ⟨?_, ?_, ?_⟩
  · simp [duplicate_list, hfind, hcond]
  · simp [duplicate_list, hfind, hcond]
  · have hitems : itemsOf (duplicate_list db uid lid).2 db.nextListId =
        copyItems db.nextListId db.nextItemId
          (List.insertionSort (fun a b => a.position ≤ b.position)
            (itemsOf db lid)) := by
      have hstep : (duplicate_list db uid lid).2.list_items =
          db.list_items ++ copyItems db.nextListId db.nextItemId
            (List.insertionSort (fun a b => a.position ≤ b.position)
              (itemsOf db lid)) := by
        simp [duplicate_list, hfind, hcond]
      unfold itemsOf
      rw [hstep, List.filter_append]
      rw [List.filter_eq_nil_iff.mpr ?hold, List.filter_eq_self.mpr ?hnew,
        List.nil_append]
      · rfl
      case hold =>
        intro it hit
        simp only [beq_iff_eq]
        exact hfresh it hit
      case hnew =>
        intro it hit
        simp only [beq_iff_eq]
        exact copyItems_list_id db.nextListId db.nextItemId _ it hit
    rw [hitems, copyItems_map_proj]
    exact (List.perm_insertionSort _ _).map projItem

/-- Concrete datastore for the C7 witness: public list 5 owned by user 2
with one item, duplicated by user 1. -/
def dbC7 : DB :=
  ⟨[], [⟨5, 2, "mix", "desc", true, true⟩],
    [⟨50, 5, 1, some "t", some "n", some "a", some "al", none⟩],
    [], [], ⟨[], 1⟩, ⟨[], 1⟩, 6, 51⟩

/-- Source row of the C7 witness. -/
def srcC7 : ListRow := ⟨5, 2, "mix", "desc", true, true⟩

/-- Witness for C7: user 1 duplicating public list 5 succeeds. -/
theorem C7_witness :
    (srcC7 ∈ dbC7.lists ∧ srcC7.id = 5 ∧
     (∀ l ∈ dbC7.lists, l.id = 5 → l = srcC7) ∧
     (srcC7.is_public = true ∨ srcC7.user_id = 1) ∧
     (∀ it ∈ dbC7.list_items, it.list_id ≠ dbC7.nextListId)) ∧
    (duplicate_list dbC7 1 5).1 = respOk :=
  ⟨⟨by decide, by decide, by decide, by decide, by decide⟩,
    (C7_duplicate_semantics dbC7 1 5 srcC7 (by decide) (by decide) (by decide)
      (by decide) (by decide)).1⟩

/-! Claim C2 (corrected). -/

/-- Datastore without any list of id 5. -/
def dbC2missing : DB := dbEmpty

/-- Datastore in which list 5 exists, is private, and is owned by user 2. -/
def dbC2private : DB :=
  ⟨[], [⟨5, 2, "secret", "", false, false⟩], [], [], [], ⟨[], 1⟩, ⟨[], 1⟩, 6, 1⟩

/-- Counterexample to C2 as stated: for `duplicate_list`, a missing list id
yields a 404 "List not found" while an existing private list of another
owner yields the 403 denial — the two responses are distinguishable, so
duplicate does disclose existence. -/
theorem C2_counterexample :
    (duplicate_list dbC2missing 1 5).1 = respNotFound ∧
    (duplicate_list dbC2private 1 5).1 = respDenied ∧
    respNotFound ≠ respDenied :=
  ⟨rfl, rfl, by decide⟩

/-- C2 (amended): for the seven single-query mutating endpoints, a missing
list id and a list owned by another user produce the identical 403 denial;
`duplicate_list` however answers 404 for a missing id and 403 for an
existing private list of another owner. -/
theorem C2_denial_uniformity (db : DB) (A lid iid : Nat) (pos : Int)
    (td : TrackData) (sd : SettingsData) (ord : List (Nat × Int))
    (hNoOwn : ∀ l ∈ db.lists, l.id = lid → l.user_id ≠ A) :
    ((add_to_list db A lid td).1 = respDenied ∧
     (remove_from_list db A lid iid).1 = respDenied ∧
     (update_list_item db A lid iid td).1 = respDenied ∧
     (reorder_list db A lid iid pos).1 = respDenied ∧
     (reorder_list_all db A lid ord).1 = respDenied ∧
     (update_list_settings db A lid sd).1 = respDenied ∧
     (delete_list db A lid).1 = respDenied) ∧
    ((∀ l ∈ db.lists, l.id ≠ lid) →
      (duplicate_list db A lid).1 = respNotFound) ∧
    ((∃ l ∈ db.lists, l.id = lid) →
      (∀ l ∈ db.lists, l.id = lid → l.is_public = false) →
      (duplicate_list db A lid).1 = respDenied) := by
  have hnone : ownedList db A lid = none := ownedList_eq_none hNoOwn
  refine ⟨⟨?_, ?_, ?_, ?_, ?_, ?_, ?_⟩, ?_, ?_⟩
  · simp [add_to_list, hnone]
  · simp [remove_from_list, hnone]
  · simp [update_list_item, hnone]
  · simp [reorder_list, hnone]
  · simp [reorder_list_all, hnone]
  · simp [update_list_settings, hnone]
  · simp [delete_list, hnone]
  · intro hmiss
    have hfindnone : db.lists.find? (fun l => l.id == lid) = none := by
      rw [List.find?_eq_none]
      intro l hl
      simpa using hmiss l hl
    simp [duplicate_list, hfindnone]
  · rintro ⟨l0, hl0, hid0⟩ hpriv
    have hex : ∃ x ∈ db.lists, (fun l : ListRow => l.id == lid) x = true :=
      ⟨l0, hl0, by simp [hid0]⟩
    have hsome : (db.lists.find? (fun l => l.id == lid)).isSome = true :=
      List.find?_isSome.mpr hex
    obtain ⟨src, hfind⟩ := Option.isSome_iff_exists.mp hsome
    have hsrcmem := List.mem_of_find?_eq_some hfind
    have hsrcid : src.id = lid := by
      have hp := List.find?_some hfind
      simpa using hp
    have hpub : src.is_public = false := hpriv src hsrcmem hsrcid
    have howner : A ≠ src.user_id := Ne.symm (hNoOwn src hsrcmem hsrcid)
    have hcond : (!src.is_public && !(A == src.user_id)) = true := by
      simp [hpub, beq_eq_false_iff_ne.mpr howner]
    simp [duplicate_list, hfind, hcond]

/-- Witness for the amended C2 at the private list 5 owned by user 2. -/
theorem C2_witness :
    ((∀ l ∈ dbC2private.lists, l.id = 5 → l.user_id ≠ 1) ∧
     (∃ l ∈ dbC2private.lists, l.id = 5) ∧
     (∀ l ∈ dbC2private.lists, l.id = 5 → l.is_public = false)) ∧
    (duplicate_list dbC2private 1 5).1 = respDenied :=
  ⟨⟨by decide, by decide, by decide⟩,
    (C2_denial_uniformity dbC2private 1 5 0 0 tdW sdW [] (by decide)).2.2
      (by decide) (by decide)⟩

/-! Claim C3. -/

/-- Updating rows of the profiles table in place (by id) commutes with the
lookup by id: the found row is the updated image of the previously found
row, for any id-preserving per-row update `f`. -/
lemma find?_id_map_update (profiles : List Profile) (uid : Nat)
    (f : Profile → Profile) (hf : ∀ q, (f q).id = q.id) (p : Profile)
    (hfind : profiles.find? (fun q => q.id == uid) = some p) :
    (profiles.map (fun q => if q.id == uid then f q else q)).find?
      (fun q => q.id == uid) = some (if p.id == uid then f p else p) := by
  rw [List.find?_map]
  have hpred : ((fun q : Profile => q.id == uid) ∘
      (fun q => if q.id == uid then f q else q)) = (fun q => q.id == uid) := by
    funext q
    show ((if q.id == uid then f q else q).id == uid) = (q.id == uid)
    by_cases hq : (q.id == uid) = true
    · rw [if_pos hq, hf]
    · rw [if_neg hq]
  rw [hpred, hfind]
  rfl

/-- Rows whose id differs from the updated id survive an in-place update
unchanged. -/
lemma mem_map_update_of_ne (profiles : List Profile) (uid : Nat)
    (f : Profile → Profile) (q : Profile) (hq : q ∈ profiles)
    (hne : q.id ≠ uid) :
    q ∈ profiles.map (fun r => if r.id == uid then f r else r) := by
  have heq : (if q.id == uid then f q else q) = q := by
    rw [if_neg]
    simp [hne]
  rw [← heq]
  exact List.mem_map_of_mem _ hq

/-- What C3 requires of the result of `get_user_spotify_client` for a user
whose stored token is expired: with a stored refresh token, exactly one
refresh call is made; on success the new access token and expiry are
persisted and a rotated refresh token overwrites the stored one, while
other profiles are untouched; on failure, or with no stored refresh token,
the client is "not connected" and the profiles table is unchanged. -/
def refreshSpec (profiles : List Profile) (uid : Nat) (now : Int)
    (refreshResp : String → Option TokenData) (p : Profile)
    (res : SpotifyClientResult) : Prop :=
  (∀ rt, p.spotify_refresh_token = some rt →
    (∀ td, refreshResp rt = some td →
      res.refreshCalls = 1 ∧
      res.client = some td.access_token ∧
      res.profiles.find? (fun q => q.id == uid) =
        some { p with
          spotify_access_token := some td.access_token,
          spotify_token_expires := some (now + td.expires_in),
          spotify_refresh_token :=
            match td.refresh_token with
            | some r2 => some r2
            | none => p.spotify_refresh_token } ∧
      (∀ q ∈ profiles, q.id ≠ uid → q ∈ res.profiles)) ∧
    (refreshResp rt = none →
      res.client = none ∧ res.profiles = profiles ∧ res.refreshCalls = 1)) ∧
  (p.spotify_refresh_token = none →
    res.client = none ∧ res.profiles = profiles ∧ res.refreshCalls = 0)

/-- C3: for a user whose stored expiry is at or before `now`, the per-user
client constructor refreshes lazily exactly as `refreshSpec` states. -/
theorem C3_lazy_token_refresh (profiles : List Profile) (uid : Nat)
    (now exp : Int) (tok : String) (refreshResp : String → Option TokenData)
    (p : Profile)
    (hfind : profiles.find? (fun q => q.id == uid) = some p)
    (htok : p.spotify_access_token = some tok)
    (hexp : p.spotify_token_expires = some exp)
    (hexpired : exp ≤ now) :
    refreshSpec profiles uid now refreshResp p
      (get_user_spotify_client profiles uid now refreshResp) := by
  have hpid : (p.id == uid) = true := by
    have h := List.find?_some hfind
    exact h
  constructor
  · intro rt hrt
    constructor
    · intro td htd
      have hres : get_user_spotify_client profiles uid now refreshResp =
          ⟨some td.access_token,
            profiles.map (fun q =>
              if q.id == uid then
                { q with
                  spotify_access_token := some td.access_token,
                  spotify_token_expires := some (now + td.expires_in),
                  spotify_refresh_token :=
                    match td.refresh_token with
                    | some r2 => some r2
                    | none => q.spotify_refresh_token }
              else q),
            1⟩ := by
        simp [get_user_spotify_client, hfind, htok, hexp, hexpired, hrt, htd]
      rw [hres]
      refine ⟨rfl, rfl, ?_, ?_⟩
      · have hupd := find?_id_map_update profiles uid
          (fun q =>
            { q with
              spotify_access_token := some td.access_token,
              spotify_token_expires := some (now + td.expires_in),
              spotify_refresh_token :=
                match td.refresh_token with
                | some r2 => some r2
                | none => q.spotify_refresh_token })
          (fun q => rfl) p hfind
        rw [if_pos hpid] at hupd
        exact hupd
      · intro q hq hqne
        exact mem_map_update_of_ne profiles uid _ q hq hqne
    · intro hfail
      have : get_user_spotify_client profiles uid now refreshResp =
          ⟨none, profiles, 1⟩ := by
        simp [get_user_spotify_client, hfind, htok, hexp, hexpired, hrt, hfail]
      rw [this]
      exact ⟨rfl, rfl, rfl⟩
  · intro hnort
    have : get_user_spotify_client profiles uid now refreshResp =
        ⟨none, profiles, 0⟩ := by
      simp [get_user_spotify_client, hfind, htok, hexp, hexpired, hnort]
    rw [this]
    exact ⟨rfl, rfl, rfl⟩

/-- Profiles table of the C3 witness: user 1 holds an expired token. -/
def profilesC3 : List Profile := [⟨1, "alice", some "old", some "rt", some 100⟩]

/-- Profile row of the C3 witness. -/
def pC3 : Profile := ⟨1, "alice", some "old", some "rt", some 100⟩

/-- Refresh oracle of the C3 witness: always succeeds and rotates the
refresh token. -/
def refreshC3 : String → Option TokenData := fun _ => some ⟨"new", 3600, some "rt2"⟩

/-- Witness for C3: user 1's expired token at time 200 satisfies the
refresh specification. -/
theorem C3_witness :
    (profilesC3.find? (fun q => q.id == 1) = some pC3 ∧
     pC3.spotify_access_token = some "old" ∧
     pC3.spotify_token_expires = some 100 ∧ (100 : Int) ≤ 200) ∧
    refreshSpec profilesC3 1 200 refreshC3 pC3
      (get_user_spotify_client profilesC3 1 200 refreshC3) :=
  ⟨⟨by decide, rfl, rfl, by decide⟩,
    C3_lazy_token_refresh profilesC3 1 200 100 "old" refreshC3 pC3
      (by decide) rfl rfl (by decide)⟩

/-! Claim C5. -/

/-- Invariant of a ratings table: distinct row ids below the next fresh id,
at most one row per (user, subject) key, and no stored zero rating. -/
def ratingsInv (t : RatingsTable) : Prop :=
  (t.rows.map (fun r => r.id)).Nodup ∧
  (∀ r ∈ t.rows, r.id < t.nextId) ∧
  (∀ u2 n2 a2, keyCount t u2 n2 a2 ≤ 1) ∧
  (∀ r ∈ t.rows, r.rating ≠ 0)

/-- What C5 requires of one rating save: success in every case; rating 0
deletes exactly the key's row (a no-op when none exists); a non-zero rating
inserts a fresh row when none exists and otherwise updates the existing
row in place; afterwards the table still holds at most one row per key and
no zero rating. -/
def saveSpec (t : RatingsTable) (uid : Nat) (name artist : String)
    (art : Option String) (rating : Int) (out : Resp × RatingsTable) : Prop :=
  out.1 = respOk ∧
  (rating = 0 →
    out.2.rows = t.rows.filter (fun r => !(keyMatch uid name artist r)) ∧
    (keyCount t uid name artist = 0 → out.2 = t)) ∧
  (rating ≠ 0 →
    (keyCount t uid name artist = 0 →
      out.2.rows = t.rows ++ [⟨t.nextId, uid, name, artist, art, rating⟩]) ∧
    (keyCount t uid name artist ≠ 0 →
      out.2.rows = t.rows.map (fun r =>
        if keyMatch uid name artist r then
          { r with rating := rating, album_art_url := art }
        else r))) ∧
  (∀ u2 n2 a2, keyCount out.2 u2 n2 a2 ≤ 1) ∧
  (∀ r ∈ out.2.rows, r.rating ≠ 0)

/-- A pointwise key-preserving row update preserves per-key row counts. -/
lemma length_filter_map_eq {α : Type} (g : α → α) (p : α → Bool)
    (h : ∀ r, p (g r) = p r) : ∀ l : List α,
    ((l.map g).filter p).length = (l.filter p).length := by
  intro l
  induction l with
  | nil => rfl
  | cons a as ih =>
    rw [List.map_cons, List.filter_cons, List.filter_cons, h a]
    by_cases hp : p a = true
    · rw [if_pos hp, if_pos hp]
      simp [ih]
    · rw [if_neg hp, if_neg hp]
      exact ih

/-- The core rating-save meets `saveSpec` on every invariant-satisfying
table. -/
lemma save_rating_spec (t : RatingsTable) (uid : Nat) (name artist : String)
    (art : Option String) (rating : Int) (hinv : ratingsInv t) :
    saveSpec t uid name artist art rating
      (save_rating t uid name artist art rating) := by
  obtain ⟨hnodup, hbound, hatmost, hnozero⟩ := hinv
  unfold saveSpec
  by_cases hr0 : rating = 0
  · subst hr0
    cases hex : t.rows.filter (keyMatch uid name artist) with
    | nil =>
      have hout : save_rating t uid name artist art 0 = (respOk, t) := by
        simp [save_rating, hex]
      rw [hout]
      refine ⟨rfl, ?_, ?_, ?_, ?_⟩
      · intro _
        refine ⟨?_, fun _ => rfl⟩
        symm
        apply List.filter_eq_self.mpr
        intro r hr
        have hk : keyMatch uid name artist r = false := by
          have h2 := List.filter_eq_nil_iff.mp hex r hr
          revert h2
          cases keyMatch uid name artist r <;> simp
        rw [hk]
        rfl
      · intro h
        exact absurd rfl h
      · exact hatmost
      · exact hnozero
    | cons e rest =>
      have hrest : rest = [] := by
        have h := hatmost uid name artist
        unfold keyCount at h
        rw [hex, List.length_cons] at h
        exact List.length_eq_zero.mp (by omega)
      subst hrest
      have he : e ∈ t.rows.filter (keyMatch uid name artist) := by
        rw [hex]
        exact List.mem_cons_self e []
      have he_mem : e ∈ t.rows := (List.mem_filter.mp he).1
      have hKe : keyMatch uid name artist e = true := (List.mem_filter.mp he).2
      have hinner : ∀ r ∈ t.rows, (r.id == e.id) = keyMatch uid name artist r := by
        intro r hr
        by_cases hb : (r.id == e.id) = true
        · have hre : r = e := nodup_map_inj hnodup hr he_mem (by simpa using hb)
          rw [hb, hre, hKe]
        · have hb2 : (r.id == e.id) = false := by
            revert hb
            cases (r.id == e.id) <;> simp
          rw [hb2]
          by_cases hk : keyMatch uid name artist r = true
          · exfalso
            have hrf : r ∈ t.rows.filter (keyMatch uid name artist) :=
              List.mem_filter.mpr ⟨hr, hk⟩
            rw [hex] at hrf
            have hre : r = e := by simpa using hrf
            apply hb
            rw [hre]
            exact beq_self_eq_true e.id
          · revert hk
            cases keyMatch uid name artist r <;> simp
      have hout : save_rating t uid name artist art 0 =
          (respOk, ⟨t.rows.filter (fun r => !(r.id == e.id)), t.nextId⟩) := by
        simp [save_rating, hex]
      rw [hout]
      have hfe : t.rows.filter (fun r => !(r.id == e.id)) =
          t.rows.filter (fun r => !(keyMatch uid name artist r)) :=
        List.filter_congr (fun r hr => by rw [hinner r hr])
      refine ⟨rfl, ?_, ?_, ?_, ?_⟩
      · intro _
        refine ⟨hfe, ?_⟩
        intro h0
        exfalso
        unfold keyCount at h0
        rw [hex] at h0
        simp at h0
      · intro h
        exact absurd rfl h
      · intro u2 n2 a2
        unfold keyCount
        exact le_trans
          (List.Sublist.length_le (List.Sublist.filter _ (List.filter_sublist _)))
          (hatmost u2 n2 a2)
      · intro r hr
        exact hnozero r (List.mem_filter.mp hr).1
  · have hrb : (rating == 0) = false := beq_eq_false_iff_ne.mpr hr0
    cases hex : t.rows.filter (keyMatch uid name artist) with
    | nil =>
      have hout : save_rating t uid name artist art rating =
          (respOk, ⟨t.rows ++ [⟨t.nextId, uid, name, artist, art, rating⟩],
            t.nextId + 1⟩) := by
        simp [save_rating, hex, hrb]
      rw [hout]
      refine ⟨rfl, ?_, ?_, ?_, ?_⟩
      · intro h0
        exact absurd h0 hr0
      · intro _
        refine ⟨fun _ => rfl, ?_⟩
        intro hne
        exfalso
        apply hne
        unfold keyCount
        rw [hex]
        rfl
      · intro u2 n2 a2
        unfold keyCount
        rw [List.filter_append, List.length_append]
        by_cases hnew : keyMatch u2 n2 a2 ⟨t.nextId, uid, name, artist, art, rating⟩ = true
        · have h1 : uid = u2 ∧ name = n2 ∧ artist = a2 := by
            unfold keyMatch at hnew
            simp only [Bool.and_eq_true, beq_iff_eq] at hnew
            exact ⟨hnew.1.1, hnew.1.2, hnew.2⟩
          obtain ⟨rfl, rfl, rfl⟩ :
              u2 = uid ∧ n2 = name ∧ a2 = artist :=
            ⟨h1.1.symm, h1.2.1.symm, h1.2.2.symm⟩
          rw [hex]
          simp [hnew]
        · have hnew2 : keyMatch u2 n2 a2 ⟨t.nextId, uid, name, artist, art, rating⟩ = false := by
            revert hnew
            cases keyMatch u2 n2 a2 ⟨t.nextId, uid, name, artist, art, rating⟩ <;> simp
          simp only [List.filter_cons, hnew2, List.filter_nil]
          simp only [Bool.false_eq_true, if_false, List.length_nil, Nat.add_zero]
          exact hatmost u2 n2 a2
      · intro r hr
        rcases List.mem_append.mp hr with h | h
        · exact hnozero r h
        · have hrn : r = ⟨t.nextId, uid, name, artist, art, rating⟩ := by
            simpa using h
          rw [hrn]
          exact hr0
    | cons e rest =>
      have hrest : rest = [] := by
        have h := hatmost uid name artist
        unfold keyCount at h
        rw [hex, List.length_cons] at h
        exact List.length_eq_zero.mp (by omega)
      subst hrest
      have he : e ∈ t.rows.filter (keyMatch uid name artist) := by
        rw [hex]
        exact List.mem_cons_self e []
      have he_mem : e ∈ t.rows := (List.mem_filter.mp he).1
      have hKe : keyMatch uid name artist e = true := (List.mem_filter.mp he).2
      have hinner : ∀ r ∈ t.rows, (r.id == e.id) = keyMatch uid name artist r := by
        intro r hr
        by_cases hb : (r.id == e.id) = true
        · have hre : r = e := nodup_map_inj hnodup hr he_mem (by simpa using hb)
          rw [hb, hre, hKe]
        · have hb2 : (r.id == e.id) = false := by
            revert hb
            cases (r.id == e.id) <;> simp
          rw [hb2]
          by_cases hk : keyMatch uid name artist r = true
          · exfalso
            have hrf : r ∈ t.rows.filter (keyMatch uid name artist) :=
              List.mem_filter.mpr ⟨hr, hk⟩
            rw [hex] at hrf
            have hre : r = e := by simpa using hrf
            apply hb
            rw [hre]
            exact beq_self_eq_true e.id
          · revert hk
            cases keyMatch uid name artist r <;> simp
      have hout : save_rating t uid name artist art rating =
          (respOk, ⟨t.rows.map (fun r =>
            if r.id == e.id then { r with rating := rating, album_art_url := art }
            else r), t.nextId⟩) := by
        simp [save_rating, hex, hrb]
      rw [hout]
      refine ⟨rfl, ?_, ?_, ?_, ?_⟩
      · intro h0
        exact absurd h0 hr0
      · intro _
        constructor
        · intro h0
          exfalso
          unfold keyCount at h0
          rw [hex] at h0
          simp at h0
        · intro _
          apply List.map_congr_left
          intro r hr
          rw [hinner r hr]
      · intro u2 n2 a2
        unfold keyCount
        have hpres : ∀ r : RatingRow, keyMatch u2 n2 a2
            (if (r.id == e.id) = true then
              { r with rating := rating, album_art_url := art } else r) =
            keyMatch u2 n2 a2 r := by
          intro r
          by_cases hb : (r.id == e.id) = true
          · rw [if_pos hb]
            rfl
          · rw [if_neg hb]
        exact le_trans
          (le_of_eq (length_filter_map_eq _ _ hpres t.rows))
          (hatmost u2 n2 a2)
      · intro r hr
        rcases List.mem_map.mp hr with ⟨r0, hr0mem, rfl⟩
        by_cases hb : (r0.id == e.id) = true
        · rw [if_pos hb]
          exact hr0
        · rw [if_neg hb]
          exact hnozero r0 hr0mem

/-- C5: the album and song rating endpoints both meet `saveSpec` — rating 0
is a tombstone (delete if present, no-op otherwise, success either way),
non-zero ratings insert-or-update, and at most one row per key with no
stored zero survives. -/
theorem C5_rating_tombstone (db : DB) (uid : Nat) (name artist : String)
    (art : Option String) (rating : Int)
    (hA : ratingsInv db.album_ratings) (hS : ratingsInv db.song_ratings) :
    saveSpec db.album_ratings uid name artist art rating
      ((save_album_rating db uid name artist art rating).1,
       (save_album_rating db uid name artist art rating).2.album_ratings) ∧
    saveSpec db.song_ratings uid name artist art rating
      ((save_song_rating db uid name artist art rating).1,
       (save_song_rating db uid name artist art rating).2.song_ratings) :=
  ⟨save_rating_spec db.album_ratings uid name artist art rating hA,
    save_rating_spec db.song_ratings uid name artist art rating hS⟩

/-- The empty ratings table satisfies the invariant. -/
lemma ratingsInv_empty : ratingsInv ⟨[], 1⟩ := by
  refine ⟨List.nodup_nil, ?_, ?_, ?_⟩
  · intro r hr
    cases hr
  · intro u2 n2 a2
    simp [keyCount]
  · intro r hr
    cases hr

/-- Witness for C5: saving rating 4 on the empty store meets the
specification for the album table. -/
theorem C5_witness :
    (ratingsInv dbEmpty.album_ratings ∧ ratingsInv dbEmpty.song_ratings) ∧
    saveSpec dbEmpty.album_ratings 1 "In Rainbows" "Radiohead" none 4
      ((save_album_rating dbEmpty 1 "In Rainbows" "Radiohead" none 4).1,
       (save_album_rating dbEmpty 1 "In Rainbows" "Radiohead" none 4).2.album_ratings) :=
  ⟨⟨ratingsInv_empty, ratingsInv_empty⟩,
    (C5_rating_tombstone dbEmpty 1 "In Rainbows" "Radiohead" none 4
      ratingsInv_empty ratingsInv_empty).1⟩

end Jukebox
